import Mathlib

/-!
Verification of the round/game state machine of a single-player
Rock-Paper-Scissors game (src/script.js), shallowly embedded in Lean.

The embedding follows the source file function by function:
module-level mutable state (`gameState`, `gameSettings`) becomes explicit
state passing, JS numbers holding integer values become `Int`, the
`timerInterval` handle becomes a `Bool` flag (interval set or null), the
`Math.random()` draw of the AI becomes an explicit `Choice` parameter, and the
`setTimeout` used by `handleChoiceClick` becomes an explicit list of
scheduled delayed actions returned alongside the new state.
-/

namespace RPS

/-- The three choices (the `CHOICES` array: rock, paper, scissors). -/
inductive Choice
  | rock
  | paper
  | scissors
deriving DecidableEq, Fintype, Repr

/-- The round result strings returned by `determineWinner`:
    win, lose or tie. -/
inductive Result
  | win
  | lose
  | tie
deriving DecidableEq, Fintype, Repr

/-- `gameSettings`: the configurable settings object. -/
structure GameSettings where
  soundEnabled : Bool
  timerDuration : Int
  winningScore : Int
deriving DecidableEq, Repr

/-- `gameState`: the mutable game state object. `timerInterval` is the
    interval handle, modelled as a flag (`true` iff an interval is set). -/
structure GameState where
  playerScore : Int
  aiScore : Int
  totalPoints : Int
  currentTimer : Int
  timerInterval : Bool
  playerChoice : Option Choice
  aiChoice : Option Choice
  isRoundActive : Bool
deriving DecidableEq, Repr

/-- `determineWinner(playerChoice, aiChoice)`: tie on equal choices,
    otherwise win exactly on the three listed winning pairs, else lose. -/
def determineWinner (playerChoice aiChoice : Choice) : Result :=
  if playerChoice = aiChoice then
    Result.tie
  else if (playerChoice = Choice.rock ∧ aiChoice = Choice.scissors)
       ∨ (playerChoice = Choice.paper ∧ aiChoice = Choice.rock)
       ∨ (playerChoice = Choice.scissors ∧ aiChoice = Choice.paper) then
    Result.win
  else
    Result.lose

/-- `calculatePoints(result)`: win 500, tie 100, lose 0. -/
def calculatePoints : Result → Int
  | Result.win => 500
  | Result.tie => 100
  | Result.lose => 0

/-- `resetGameState()`: all counters zeroed, timer set to the configured
    duration, no interval, no choices, round inactive. -/
def resetGameState (st : GameSettings) : GameState :=
  { playerScore := 0
    aiScore := 0
    totalPoints := 0
    currentTimer := st.timerDuration
    timerInterval := false
    playerChoice := none
    aiChoice := none
    isRoundActive := false }

/-- `resetRound()`: clears both choices, restores the countdown, clears
    the active flag; scores, points and the interval handle are untouched. -/
def resetRound (st : GameSettings) (s : GameState) : GameState :=
  { s with
    playerChoice := none
    aiChoice := none
    currentTimer := st.timerDuration
    isRoundActive := false }

/-- `stopTimer()`: clears the interval if one is set, otherwise a no-op. -/
def stopTimer (s : GameState) : GameState :=
  if s.timerInterval then { s with timerInterval := false } else s

/-- The state effect of `startTimer()`: clears any existing interval and
    installs a fresh one (the tick behaviour itself is modelled by
    `runTimer` below). -/
def startTimer (s : GameState) : GameState :=
  { stopTimer s with timerInterval := true }

/-- `startRound()`: marks the round active, resets the countdown to the
    configured duration and starts the timer. -/
def startRound (st : GameSettings) (s : GameState) : GameState :=
  startTimer { s with isRoundActive := true, currentTimer := st.timerDuration }

/-- `handleStartGame()`: resets the whole game state and starts the first
    round. The source performs no validation of the settings. -/
def handleStartGame (st : GameSettings) : GameState :=
  startRound st (resetGameState st)

/-- The result `determineWinner(gameState.playerChoice, gameState.aiChoice)`
    computed inside `processRound`. When `playerChoice` is still `null` the
    JS string comparisons of null with a choice string all fail, so
    the function returns lose. -/
def roundResult (playerChoice : Option Choice) (ai : Choice) : Result :=
  match playerChoice with
  | some p => determineWinner p ai
  | none => Result.lose

/-- `processRound()` state effect: draws the AI choice (`ai`, the
    `getRandomChoice()` result, passed explicitly), determines the winner,
    increments exactly the score of the winner, and adds the earned points to
    `totalPoints`. Note: the source does NOT clear `isRoundActive` here. -/
def processRoundState (ai : Choice) (s : GameState) : GameState :=
  let s1 := { s with aiChoice := some ai }
  let result := roundResult s1.playerChoice ai
  let s2 :=
    match result with
    | Result.win => { s1 with playerScore := s1.playerScore + 1 }
    | Result.lose => { s1 with aiScore := s1.aiScore + 1 }
    | Result.tie => s1
  { s2 with totalPoints := s2.totalPoints + calculatePoints result }

/-- A delayed action scheduled with `setTimeout`. -/
inductive SAction
  | processRound
deriving DecidableEq, Repr

/-- `handleChoiceClick(event)` with the choice `c` of the clicked card: ignored
    unless the round is active and no choice was made yet; otherwise stores
    the choice, stops the timer, and schedules `processRound` after a
    500 ms `setTimeout`. The scheduled actions are returned explicitly. -/
def handleChoiceClick (c : Choice) (s : GameState) :
    GameState × List (Nat × SAction) :=
  if s.isRoundActive = false ∨ s.playerChoice ≠ none then
    (s, [])
  else
    (stopTimer { s with playerChoice := some c }, [(500, SAction.processRound)])

/-- Result of `handleNextRound()`: either the game-over screen with the
    final scores and total points, or the state of the next round. -/
inductive NextRoundResult
  | gameOver (finalPlayerScore finalAiScore totalPoints : Int)
  | nextRound (s : GameState)
deriving DecidableEq, Repr

/-- `handleNextRound()`: game over when either score has reached the
    winning score, otherwise reset the round state and start a new round.
    `showGameOver` only renders; it does not change the game state. -/
def handleNextRound (st : GameSettings) (s : GameState) : NextRoundResult :=
  if st.winningScore ≤ s.playerScore ∨ st.winningScore ≤ s.aiScore then
    NextRoundResult.gameOver s.playerScore s.aiScore s.totalPoints
  else
    NextRoundResult.nextRound (startRound st (resetRound st s))

/-- Whether a `handleNextRound` result is the game-over outcome. -/
def isGameOver : NextRoundResult → Bool
  | NextRoundResult.gameOver _ _ _ => true
  | NextRoundResult.nextRound _ => false

/-! ### Timer trace model

The `setInterval` callback installed by `startTimer` decrements
`currentTimer`, displays the new value (the tick notification), and when
the value has reached 0 clears the interval and performs the expiry
actions. `runTimer fuel c` is the event trace produced when the interval
callback fires at most `fuel` times, starting from `currentTimer = c`;
stopping the timer after `k` firings (a choice submission) is `fuel = k`. -/

/-- An observable timer event: a tick carrying the decremented remaining
    value, or the expiry. -/
inductive TimerEvent
  | tick (remaining : Int)
  | expire
deriving DecidableEq, Repr

/-- Trace of the interval callback: each firing decrements the counter and
    emits a tick with the new value; if the new value is ≤ 0 it emits the
    expiry and stops (the interval is cleared, so nothing follows). -/
def runTimer : Nat → Int → List TimerEvent
  | 0, _ => []
  | fuel + 1, c =>
    let c1 := c - 1
    if c1 ≤ 0 then
      [TimerEvent.tick c1, TimerEvent.expire]
    else
      TimerEvent.tick c1 :: runTimer fuel c1

/-- Whether a timer event is a tick. -/
def isTick : TimerEvent → Bool
  | TimerEvent.tick _ => true
  | TimerEvent.expire => false

/-- The descending tick train `tick (n-1), tick (n-2), ..., tick 0`. -/
def descTicks : Nat → List TimerEvent
  | 0 => []
  | n + 1 => TimerEvent.tick (n : Int) :: descTicks n

/-! ### Session helpers

A full played round, as it happens in a real session: advance into the
round (`resetRound` then `startRound`), submit the choice of the player
(`handleChoiceClick`), then resolve (`processRound` scheduled by the
500 ms timeout). The AI draw is the second component of the pair. -/

/-- One full round with player choice `pa.1` against AI draw `pa.2`. -/
def playRound (st : GameSettings) (pa : Choice × Choice) (s : GameState) :
    GameState :=
  processRoundState pa.2 (handleChoiceClick pa.1 (startRound st (resetRound st s))).1

/-- A sequence of full rounds. -/
def playRounds (st : GameSettings) (l : List (Choice × Choice)) (s : GameState) :
    GameState :=
  l.foldl (fun s pa => playRound st pa s) s

/-- The in-session operations of the game, for invariant statements. The
    AI draw of a resolution is carried explicitly. The `tick` operation is
    the decrement performed by the interval callback; expiry resolution is
    the `resolveRound` operation. -/
inductive GameOp
  | startRound
  | submitChoice (c : Choice)
  | tick
  | resolveRound (ai : Choice)
  | advance
deriving DecidableEq, Repr

/-- State effect of one in-session operation. -/
def applyOp (st : GameSettings) : GameOp → GameState → GameState
  | GameOp.startRound, s => startRound st s
  | GameOp.submitChoice c, s => (handleChoiceClick c s).1
  | GameOp.tick, s => { s with currentTimer := s.currentTimer - 1 }
  | GameOp.resolveRound ai, s => processRoundState ai s
  | GameOp.advance, s =>
    match handleNextRound st s with
    | NextRoundResult.gameOver _ _ _ => s
    | NextRoundResult.nextRound s1 => s1

/-! ### Concrete sample data for scenario theorems -/

/-- Default settings (the initial `gameSettings` of the source). -/
def st0 : GameSettings := { soundEnabled := true, timerDuration := 10, winningScore := 5 }

/-- An idle state: freshly reset, no round running. -/
def sIdle : GameState := resetGameState st0

/-- An active state: game just started, round running, no choice yet. -/
def sActive : GameState := handleStartGame st0

/-- The state right after the first round resolved (rock vs scissors). -/
def sResolved : GameState :=
  processRoundState Choice.scissors (handleChoiceClick Choice.rock sActive).1

/-- A state whose player score has reached the default winning score. -/
def sWon : GameState := { sIdle with playerScore := 5, aiScore := 3, totalPoints := 2600 }

/-- A mid-game state: nobody has reached the winning score. -/
def sMid : GameState := { sIdle with playerScore := 1, totalPoints := 600 }

/-! ### Normal-form lemmas for the state operations -/

/-- `stopTimer` always results in a cleared interval handle. -/
theorem stopTimer_eq (s : GameState) : stopTimer s = { s with timerInterval := false } := by
  rcases s with ⟨ps, qs, tp, ct, ti, pc, ac, ra⟩
  cases ti <;> simp [stopTimer]

/-- `startTimer` always results in a set interval handle. -/
theorem startTimer_eq (s : GameState) : startTimer s = { s with timerInterval := true } := by
  rw [startTimer, stopTimer_eq]

/-- `startRound` as a single record update. -/
theorem startRound_eq (st : GameSettings) (s : GameState) :
    startRound st s =
      { s with currentTimer := st.timerDuration, timerInterval := true,
               isRoundActive := true } := by
  rw [startRound, startTimer_eq]

/-- `processRound` as a single record update: the AI choice is stored, the
    score of the winner is incremented, and the earned points are added. -/
theorem processRoundState_eq (ai : Choice) (s : GameState) :
    processRoundState ai s =
      { s with
        aiChoice := some ai
        playerScore := s.playerScore +
          (if roundResult s.playerChoice ai = Result.win then 1 else 0)
        aiScore := s.aiScore +
          (if roundResult s.playerChoice ai = Result.lose then 1 else 0)
        totalPoints := s.totalPoints + calculatePoints (roundResult s.playerChoice ai) } := by
  cases h : roundResult s.playerChoice ai <;>
    simp [processRoundState, h]

/-- `playRound` adds exactly the points of the outcome of the round. -/
theorem playRound_totalPoints (st : GameSettings) (pa : Choice × Choice) (s : GameState) :
    (playRound st pa s).totalPoints =
      s.totalPoints + calculatePoints (determineWinner pa.1 pa.2) := by
  rcases pa with ⟨p, a⟩
  simp [playRound, startRound_eq, resetRound, handleChoiceClick, stopTimer_eq,
    processRoundState_eq, roundResult]

/-! ### Claim theorems -/

/-- Claim C1: for every pair of choices, `determineWinner` returns tie iff
    the choices are equal; otherwise it returns win exactly on the pairs
    (rock, scissors), (paper, rock), (scissors, paper), and lose in the
    three remaining unequal cases. -/
theorem determineWinner_spec :
    ∀ p o : Choice,
      (determineWinner p o = Result.tie ↔ p = o) ∧
      (determineWinner p o = Result.win ↔
        (p = Choice.rock ∧ o = Choice.scissors) ∨
        (p = Choice.paper ∧ o = Choice.rock) ∨
        (p = Choice.scissors ∧ o = Choice.paper)) ∧
      (determineWinner p o = Result.lose ↔
        p ≠ o ∧
        ¬((p = Choice.rock ∧ o = Choice.scissors) ∨
          (p = Choice.paper ∧ o = Choice.rock) ∨
          (p = Choice.scissors ∧ o = Choice.paper))) := by
  decide

/-- Claim C2: `calculatePoints` is pure and maps win to 500, tie to 100,
    lose to 0; and after any sequence of resolved rounds, `totalPoints`
    grows by exactly the sum of the points of the outcome of each round. -/
theorem calculatePoints_totalPoints_spec :
    calculatePoints Result.win = 500 ∧
    calculatePoints Result.tie = 100 ∧
    calculatePoints Result.lose = 0 ∧
    ∀ (st : GameSettings) (l : List (Choice × Choice)) (s : GameState),
      (playRounds st l s).totalPoints =
        s.totalPoints +
          (l.map fun pa => calculatePoints (determineWinner pa.1 pa.2)).sum := by
  refine ⟨rfl, rfl, rfl, fun st l => ?_⟩
  induction l with
  | nil => intro s; simp [playRounds]
  | cons pa l ih =>
    intro s
    simp only [playRounds, List.foldl_cons, List.map_cons, List.sum_cons]
    have h : playRounds st l (playRound st pa s) =
        List.foldl (fun s pa => playRound st pa s) (playRound st pa s) l := rfl
    rw [← h, ih (playRound st pa s), playRound_totalPoints]
    ring

/-- Claim C3 counterexample: with `timerDuration = 0` (a non-positive
    setting), `handleStartGame` does not fail: it resets the state and
    starts a round (`isRoundActive` becomes true), so the game does start. -/
theorem startGame_invalid_settings_counterexample :
    (handleStartGame { soundEnabled := true, timerDuration := 0, winningScore := 5 }).isRoundActive
        = true ∧
    (handleStartGame { soundEnabled := true, timerDuration := 0, winningScore := 5 }).playerScore
        = 0 ∧
    (handleStartGame { soundEnabled := true, timerDuration := 0, winningScore := 5 }).timerInterval
        = true := by
  decide

/-- Claim C3 amended: `handleStartGame` performs no validation of the
    settings; for every settings value, non-positive included, the call
    succeeds: it resets all counters to zero and starts a round. -/
theorem startGame_no_validation (st : GameSettings) :
    handleStartGame st = startRound st (resetGameState st) ∧
    (handleStartGame st).isRoundActive = true ∧
    (handleStartGame st).playerScore = 0 ∧
    (handleStartGame st).aiScore = 0 ∧
    (handleStartGame st).totalPoints = 0 ∧
    (handleStartGame st).currentTimer = st.timerDuration ∧
    (handleStartGame st).playerChoice = none ∧
    (handleStartGame st).timerInterval = true := by
  refine ⟨rfl, ?_, ?_, ?_, ?_, ?_, ?_, ?_⟩ <;>
    simp [handleStartGame, startRound_eq, resetGameState]

/-- Claim C4 counterexample: after a round resolves (start game, submit
    rock, resolve against scissors), `isRoundActive` is still true — round
    resolution does not clear it, contrary to the claim that resolution
    sets it false. -/
theorem roundActive_resolution_counterexample :
    (processRoundState Choice.scissors
      (handleChoiceClick Choice.rock (handleStartGame st0)).1).isRoundActive = true := by
  decide

/-- Claim C4 amended: `startRound` sets `isRoundActive` true; round
    resolution (`processRound`) and choice submission leave it unchanged;
    it is cleared only by `resetRound` (when advancing past a resolved
    round) and by `resetGameState` (when a new game starts), so it stays
    true from round start until the advance to the next round, not merely
    until resolution. -/
theorem roundActive_lifecycle (st : GameSettings) (ai c : Choice) (s : GameState) :
    (startRound st s).isRoundActive = true ∧
    (processRoundState ai s).isRoundActive = s.isRoundActive ∧
    ((handleChoiceClick c s).1).isRoundActive = s.isRoundActive ∧
    (resetRound st s).isRoundActive = false ∧
    (resetGameState st).isRoundActive = false := by
  refine ⟨?_, ?_, ?_, rfl, rfl⟩
  · rw [startRound_eq]
  · rw [processRoundState_eq]
  · rw [handleChoiceClick]
    split
    · rfl
    · rw [stopTimer_eq]

/-- Claim C5: a `handleChoiceClick` while the round is inactive or a choice
    is already stored leaves the state unchanged and schedules nothing; in
    particular a second click within the same active round is a no-op. -/
theorem submitChoice_ignored_and_idempotent (c c1 : Choice) (s : GameState) :
    (s.isRoundActive = false ∨ s.playerChoice ≠ none →
      handleChoiceClick c s = (s, [])) ∧
    (s.isRoundActive = true → s.playerChoice = none →
      handleChoiceClick c1 (handleChoiceClick c s).1 = ((handleChoiceClick c s).1, [])) := by
  constructor
  · intro h
    rw [handleChoiceClick, if_pos h]
  · intro h1 h2
    have hfst : (handleChoiceClick c s).1 = stopTimer { s with playerChoice := some c } := by
      rw [handleChoiceClick, if_neg]
      simp [h1, h2]
    rw [hfst, stopTimer_eq, handleChoiceClick, if_pos]
    right
    simp

/-- Witness for C5: a click on an idle state is ignored, and a second click
    after a first one in an active round changes nothing. -/
theorem submitChoice_ignored_witness :
    handleChoiceClick Choice.rock sIdle = (sIdle, []) ∧
    handleChoiceClick Choice.paper (handleChoiceClick Choice.rock sActive).1 =
      ((handleChoiceClick Choice.rock sActive).1, []) :=
  ⟨(submitChoice_ignored_and_idempotent Choice.rock Choice.rock sIdle).1 (Or.inl rfl),
   (submitChoice_ignored_and_idempotent Choice.rock Choice.paper sActive).2 rfl rfl⟩

/-- Claim C6 counterexample: a valid choice submission does NOT resolve the
    round within the same event step: after `handleChoiceClick` the AI
    choice is still absent and the scores and points are untouched, while a
    `processRound` callback is scheduled with a 500 ms delay. -/
theorem submitChoice_delay_counterexample :
    (handleChoiceClick Choice.rock sActive).2 = [(500, SAction.processRound)] ∧
    (handleChoiceClick Choice.rock sActive).1.aiChoice = none ∧
    (handleChoiceClick Choice.rock sActive).1.playerScore = sActive.playerScore ∧
    (handleChoiceClick Choice.rock sActive).1.aiScore = sActive.aiScore ∧
    (handleChoiceClick Choice.rock sActive).1.totalPoints = sActive.totalPoints := by
  decide

/-- Claim C6 amended: a valid submission stores the choice of the player and
    stops the timer synchronously, but does not resolve the round in the
    same event step: it schedules the resolution (`processRound`) through
    a 500 ms `setTimeout` presentation delay. -/
theorem submitChoice_effect (c : Choice) (s : GameState) :
    s.isRoundActive = true → s.playerChoice = none →
    handleChoiceClick c s =
      ({ s with playerChoice := some c, timerInterval := false },
       [(500, SAction.processRound)]) := by
  intro h1 h2
  rw [handleChoiceClick, if_neg, stopTimer_eq]
  simp [h1, h2]

/-- Witness for the amended C6 at the concrete started state. -/
theorem submitChoice_effect_witness :
    handleChoiceClick Choice.rock sActive =
      ({ sActive with playerChoice := some Choice.rock, timerInterval := false },
       [(500, SAction.processRound)]) :=
  submitChoice_effect Choice.rock sActive rfl rfl

/-- Running the timer from `currentTimer = n` with `n` callback firings
    allowed produces the ticks `n-1, ..., 0` followed by the expiry. -/
theorem runTimer_full :
    ∀ n : Nat, 1 ≤ n → runTimer n (n : Int) = descTicks n ++ [TimerEvent.expire] := by
  intro n
  induction n with
  | zero => intro h; omega
  | succ m ih =>
    intro _
    by_cases hm : m = 0
    · subst hm; decide
    · have hm1 : 1 ≤ m := Nat.one_le_iff_ne_zero.mpr hm
      have hc : ((m + 1 : Nat) : Int) - 1 = (m : Int) := by push_cast; ring
      simp only [runTimer, hc]
      rw [if_neg (by omega)]
      rw [ih hm1]
      simp [descTicks]

/-- Stopping the timer after `k` firings, `k` short of the remaining count,
    yields `k` ticks and never the expiry. -/
theorem runTimer_stopped :
    ∀ (k : Nat) (c : Int), (k : Int) < c →
      (runTimer k c).length = k ∧
      TimerEvent.expire ∉ runTimer k c ∧
      (runTimer k c).countP isTick = k := by
  intro k
  induction k with
  | zero => intro c _; simp [runTimer]
  | succ m ih =>
    intro c hk
    have hpos : ¬(c - 1 ≤ 0) := by omega
    have hm : (m : Int) < c - 1 := by omega
    obtain ⟨hl, hn, hc⟩ := ih (c - 1) hm
    simp only [runTimer, if_neg hpos]
    refine ⟨by simp [hl], ?_, ?_⟩
    · simp only [List.mem_cons, not_or]
      exact ⟨by simp, hn⟩
    · simp [List.countP_cons, hc, isTick]

/-- The tick train has length `n` and consists of ticks only. -/
theorem descTicks_countP (n : Nat) : (descTicks n).countP isTick = n := by
  induction n with
  | zero => simp [descTicks]
  | succ m ih => simp [descTicks, List.countP_cons, isTick, ih]

/-- The tick train contains no expiry event. -/
theorem descTicks_no_expire (n : Nat) : TimerEvent.expire ∉ descTicks n := by
  induction n with
  | zero => simp [descTicks]
  | succ m ih => simp [descTicks, ih]

/-- For a nonempty tick train, the last tick carries the value 0. -/
theorem descTicks_getLast :
    ∀ n : Nat, (descTicks (n + 1)).getLast? = some (TimerEvent.tick 0) := by
  intro n
  induction n with
  | zero => decide
  | succ m ih =>
    show (TimerEvent.tick ((m + 1 : Nat) : Int) ::
      TimerEvent.tick ((m : Nat) : Int) :: descTicks m).getLast? =
      some (TimerEvent.tick 0)
    rw [List.getLast?_cons_cons]
    exact ih

/-- Claim C7: a timer started with duration d greater than 0 and never
    stopped emits the ticks d-1, d-2, ..., 0 (each firing decrements by
    exactly 1 and reports the new value), so the tick notification fires
    exactly d times with 0 passed to the final tick; the expiry then fires
    exactly once, after all ticks, and nothing follows it. If the timer is
    stopped after k of the d firings (a choice submission), exactly k ticks
    were emitted and the expiry never fires. -/
theorem timer_contract (d : Nat) (hd : 1 ≤ d) :
    runTimer d (d : Int) = descTicks d ++ [TimerEvent.expire] ∧
    (runTimer d (d : Int)).countP isTick = d ∧
    (runTimer d (d : Int)).countP (fun e => ¬ isTick e) = 1 ∧
    (runTimer d (d : Int)).getLast? = some TimerEvent.expire ∧
    (descTicks d).getLast? = some (TimerEvent.tick 0) ∧
    (∀ k : Nat, k < d →
      TimerEvent.expire ∉ runTimer k (d : Int) ∧
      (runTimer k (d : Int)).countP isTick = k) := by
  have hfull := runTimer_full d hd
  have hdlast : (descTicks d).getLast? = some (TimerEvent.tick 0) := by
    obtain ⟨d1, rfl⟩ : ∃ d1, d = d1 + 1 := ⟨d - 1, by omega⟩
    exact descTicks_getLast d1
  refine ⟨hfull, ?_, ?_, ?_, hdlast, ?_⟩
  · rw [hfull, List.countP_append, descTicks_countP]
    simp [isTick]
  · rw [hfull, List.countP_append]
    have h1 : (descTicks d).countP (fun e => ¬ isTick e) = 0 := by
      rw [List.countP_eq_zero]
      intro e he
      cases e with
      | tick r => simp [isTick]
      | expire => exact absurd he (descTicks_no_expire d)
    rw [h1]
    simp [isTick]
  · rw [hfull]
    simp
  · intro k hk
    have h := runTimer_stopped k (d : Int) (by exact_mod_cast hk)
    exact ⟨h.2.1, h.2.2⟩

/-- Witness for C7 at duration 3, stopped variant after 2 ticks. -/
theorem timer_contract_witness :
    runTimer 3 (3 : Int) = descTicks 3 ++ [TimerEvent.expire] ∧
    (runTimer 3 (3 : Int)).countP isTick = 3 ∧
    (descTicks 3).getLast? = some (TimerEvent.tick 0) ∧
    TimerEvent.expire ∉ runTimer 2 (3 : Int) := by
  have h := timer_contract 3 (by decide)
  exact ⟨h.1, h.2.1, h.2.2.2.2.1, (h.2.2.2.2.2 2 (by decide)).1⟩

/-- Claim C8: after a resolved round, advancing emits game over exactly
    when either score has reached the winning score, the game-over data
    being the final scores and total points; otherwise it starts the next
    round via `startRound` (on the reset round state). -/
theorem advance_game_over_spec (st : GameSettings) (s : GameState) :
    (isGameOver (handleNextRound st s) = true ↔
      st.winningScore ≤ s.playerScore ∨ st.winningScore ≤ s.aiScore) ∧
    (∀ x y z : Int, handleNextRound st s = NextRoundResult.gameOver x y z →
      x = s.playerScore ∧ y = s.aiScore ∧ z = s.totalPoints) ∧
    (∀ s1 : GameState, handleNextRound st s = NextRoundResult.nextRound s1 →
      s1 = startRound st (resetRound st s) ∧ s1.isRoundActive = true) := by
  rw [handleNextRound]
  by_cases h : st.winningScore ≤ s.playerScore ∨ st.winningScore ≤ s.aiScore
  · rw [if_pos h]
    refine ⟨by simp [isGameOver, h], ?_, ?_⟩
    · intro x y z he
      injection he with h1 h2 h3
      exact ⟨h1.symm, h2.symm, h3.symm⟩
    · intro s1 he
      cases he
  · rw [if_neg h]
    refine ⟨by simp [isGameOver, h], ?_, ?_⟩
    · intro x y z he
      cases he
    · intro s1 he
      injection he with h1
      exact ⟨h1.symm, by rw [h1.symm, startRound_eq]⟩

/-- Witness for C8: at the winning-score state the advance is game over;
    at a mid-game state it hands back the started next-round state. -/
theorem advance_game_over_witness :
    isGameOver (handleNextRound st0 sWon) = true ∧
    (startRound st0 (resetRound st0 sMid) = startRound st0 (resetRound st0 sMid) ∧
      (startRound st0 (resetRound st0 sMid)).isRoundActive = true) :=
  ⟨(advance_game_over_spec st0 sWon).1.mpr (Or.inl (by decide)),
   (advance_game_over_spec st0 sMid).2.2 (startRound st0 (resetRound st0 sMid)) rfl⟩

/-- Claim C9: a round resolution increments the player score exactly when
    the outcome is a win and the AI score exactly when it is a loss — so at
    most one score increases, by exactly 1, and a tie changes neither —
    and `totalPoints` never decreases under any in-session operation. -/
theorem score_points_invariant (st : GameSettings) (p ai : Choice) (s : GameState)
    (op : GameOp) :
    (processRoundState ai { s with playerChoice := some p }).playerScore =
      s.playerScore + (if determineWinner p ai = Result.win then 1 else 0) ∧
    (processRoundState ai { s with playerChoice := some p }).aiScore =
      s.aiScore + (if determineWinner p ai = Result.lose then 1 else 0) ∧
    s.totalPoints ≤ (applyOp st op s).totalPoints := by
  refine ⟨?_, ?_, ?_⟩
  · rw [processRoundState_eq]
    simp [roundResult]
  · rw [processRoundState_eq]
    simp [roundResult]
  · cases op with
    | startRound => rw [applyOp, startRound_eq]
    | submitChoice c =>
      rw [applyOp, handleChoiceClick]
      split
      · exact le_refl _
      · rw [stopTimer_eq]
    | tick => exact le_refl _
    | resolveRound ai1 =>
      rw [applyOp, processRoundState_eq]
      have : 0 ≤ calculatePoints (roundResult s.playerChoice ai1) := by
        cases roundResult s.playerChoice ai1 <;> simp [calculatePoints]
      simp only [GameState.mk.injEq]
      omega
    | advance =>
      rw [applyOp]
      cases h : handleNextRound st s with
      | gameOver x y z => exact le_refl _
      | nextRound s1 =>
        show s.totalPoints ≤ s1.totalPoints
        rw [handleNextRound] at h
        by_cases hc : st.winningScore ≤ s.playerScore ∨ st.winningScore ≤ s.aiScore
        · rw [if_pos hc] at h; cases h
        · rw [if_neg hc] at h
          injection h with h1
          rw [← h1, startRound_eq, resetRound]

/-- Claim C10 counterexample: advancing from a resolved round to the next
    round (`resetRound` then `startRound`) does not clear `roundActive`:
    at the concrete resolved state the advance hands back a state whose
    `isRoundActive` is true (and with the timer started), not false. -/
theorem advance_roundActive_counterexample :
    handleNextRound st0 sResolved =
      NextRoundResult.nextRound (startRound st0 (resetRound st0 sResolved)) ∧
    (startRound st0 (resetRound st0 sResolved)).isRoundActive = true ∧
    (startRound st0 (resetRound st0 sResolved)).timerInterval = true := by
  decide

/-- Claim C10 amended: advancing to the next round (`resetRound` then
    `startRound`) leaves `playerScore`, `aiScore` and `totalPoints`
    unchanged; it clears both round choices, restores the countdown to the
    configured duration, and leaves `isRoundActive` true with the timer
    started for the new round (`resetRound` alone clears `isRoundActive`;
    `startRound` immediately sets it again). -/
theorem advance_frame (st : GameSettings) (s : GameState) :
    (startRound st (resetRound st s)).playerScore = s.playerScore ∧
    (startRound st (resetRound st s)).aiScore = s.aiScore ∧
    (startRound st (resetRound st s)).totalPoints = s.totalPoints ∧
    (startRound st (resetRound st s)).playerChoice = none ∧
    (startRound st (resetRound st s)).aiChoice = none ∧
    (startRound st (resetRound st s)).currentTimer = st.timerDuration ∧
    (startRound st (resetRound st s)).isRoundActive = true ∧
    (startRound st (resetRound st s)).timerInterval = true ∧
    (resetRound st s).isRoundActive = false := by
  refine ⟨?_, ?_, ?_, ?_, ?_, ?_, ?_, ?_, rfl⟩ <;>
    rw [startRound_eq, resetRound]

end RPS
